import Mathlib

/-!
Verification of the taxi-fare training script `full_ann.py`.

The script is a linear pipeline: read a CSV of taxi rides, engineer
features (haversine distance, hour / weekday / rush buckets of the
pickup time shifted to UTC-4), encode categorical columns to dense
integer codes, stack categorical / continuous / target tensors, split
them into a train and a test slice, train a tabular network for a fixed
number of epochs and evaluate on the test slice.

We embed the pipeline shallowly: a table is a list of rows, tensors are
lists of lists of rationals (or naturals for the categorical codes),
and the two external collaborators (the tabular model's forward pass
and the haversine helper, which live outside the source tree) are
either abstracted as function parameters or modelled from the spec.
-/

namespace FullAnn

/-! ## Training parameters (`full_ann.py` lines 12-14) -/

def EPOCHS : ℕ := 300

def BATCH_N : ℕ := 6000

/-- `TEST_SPLIT = 0.2`.  The Python literal `0.2` is a double; the product
`6000 * 0.2` evaluates to exactly `1200.0` in IEEE double arithmetic
(the exact product `1200 + 6.66e-14` is within half an ulp of `1200.0`),
so modelling the fraction by the exact rational `1/5` is faithful at the
one point where the script uses it. -/
def TEST_SPLIT : ℚ := 1/5

/-! ## Data model: one row of the input CSV -/

/-- A raw ride record, one row of `nyctaxifares.csv`.  The pickup
timestamp is modelled as whole seconds since the Unix epoch (UTC),
which is the granularity the script's datetime accessors need. -/
structure RawRow where
  pickup_datetime : ℤ
  pickup_latitude : ℚ
  pickup_longitude : ℚ
  dropoff_latitude : ℚ
  dropoff_longitude : ℚ
  passenger_count : ℚ
  fare_amount : ℚ
deriving DecidableEq, Repr

/-! ## Datetime accessors (pandas `.dt.hour` and `.dt.strftime`) -/

/-- Hour of day (0..23) of a timestamp given in seconds since the Unix
epoch: pandas `Series.dt.hour`. -/
def hourOfDay (t : ℤ) : ℕ := (t % 86400).toNat / 3600

/-- Three-letter English day name of a timestamp given in seconds since
the Unix epoch: pandas `Series.dt.strftime("%a")`.  1970-01-01 (day 0)
was a Thursday, hence the offset 3 into the Monday-first name table. -/
def dayName (t : ℤ) : String :=
  ["Mon", "Tue", "Wed", "Thu", "Fri", "Sat", "Sun"].getD
    ((t / 86400 + 3) % 7).toNat ""

/-! ## Feature engineering (`full_ann.py` lines 23-41) -/

/-- Line 29: `df['EDTdate'] = df['pickup_datetime'] - pd.Timedelta(hours=4)`. -/
def EDTdate (r : RawRow) : ℤ := r.pickup_datetime - 4 * 3600

/-- Lines 34-40: bucket an hour into a rush-hour category. -/
def rush_hour (hour : ℕ) : String :=
  if 8 ≤ hour ∧ hour ≤ 9 then "am_rush"
  else if 15 ≤ hour ∧ hour ≤ 19 then "pm_rush"
  else "regular"

/-- A row after feature engineering: the raw fields plus the four
derived columns `dist_km`, `hour`, `weekday`, `rush` (line 23, 30, 31, 41).
`EDTdate` is recomputed from the raw timestamp where needed. -/
structure EngRow extends RawRow where
  dist_km : ℚ
  hour : ℕ
  weekday : String
  rush : String
deriving DecidableEq, Repr

/-- Feature engineering for one row.  The haversine helper lives in
`geo/haversine.py`, outside the source tree, so the distance column is
abstracted as a function parameter `dist`. -/
def engineer (dist : RawRow → ℚ) (r : RawRow) : EngRow :=
  { r with
    dist_km := dist r
    hour := hourOfDay (EDTdate r)
    weekday := dayName (EDTdate r)
    rush := rush_hour (hourOfDay (EDTdate r)) }

/-- Feature engineering for the whole table (the dataframe mutations on
lines 23-41 act row-wise and preserve row order). -/
def engineerTable (dist : RawRow → ℚ) (tbl : List RawRow) : List EngRow :=
  tbl.map (engineer dist)

/-! ## Categorical encoding (`full_ann.py` lines 50-57)

`df[cat].astype('category')` builds the sorted list of distinct values
occurring in the column, and `.cat.codes` maps each value to its index
in that list. -/

/-- The category list of a column: distinct values, sorted. -/
def categoriesOf {α : Type _} [DecidableEq α] [LinearOrder α]
    (vals : List α) : List α :=
  vals.dedup.insertionSort (· ≤ ·)

/-- The dense integer code of one value: its index in the column's
sorted category list. -/
def catCode {α : Type _} [DecidableEq α] [LinearOrder α]
    (vals : List α) (v : α) : ℕ :=
  (categoriesOf vals).indexOf v

/-! ## Tensor construction (`full_ann.py` lines 55-77) -/

def hourVals (tbl : List EngRow) : List ℕ := tbl.map (·.hour)

def rushVals (tbl : List EngRow) : List String := tbl.map (·.rush)

def weekdayVals (tbl : List EngRow) : List String := tbl.map (·.weekday)

/-- One row of the categorical-code matrix, in column order
`hour, rush, weekday` (lines 55-60). -/
def catsRow (tbl : List EngRow) (r : EngRow) : List ℕ :=
  [catCode (hourVals tbl) r.hour,
   catCode (rushVals tbl) r.rush,
   catCode (weekdayVals tbl) r.weekday]

/-- The categorical-code matrix `cats` (lines 55-66). -/
def cats (tbl : List EngRow) : List (List ℕ) := tbl.map (catsRow tbl)

/-- One row of the continuous matrix, in column order
`pickup_latitude, pickup_longitude, dropoff_latitude, dropoff_longitude,
passenger_count, dist_km` (lines 45, 69). -/
def contsRow (r : EngRow) : List ℚ :=
  [r.pickup_latitude, r.pickup_longitude, r.dropoff_latitude,
   r.dropoff_longitude, r.passenger_count, r.dist_km]

/-- The continuous matrix `conts` (lines 69-70). -/
def conts (tbl : List EngRow) : List (List ℚ) := tbl.map contsRow

/-- One row of the target matrix (line 73, column `fare_amount`). -/
def yRow (r : EngRow) : List ℚ := [r.fare_amount]

/-- The target matrix `y` (line 73): one column, `fare_amount`. -/
def yMat (tbl : List EngRow) : List (List ℚ) := tbl.map yRow

/-- Line 76: `cat_szs = [len(df[col].cat.categories) for col in cat_cols]`. -/
def cat_szs (tbl : List EngRow) : List ℕ :=
  [(categoriesOf (hourVals tbl)).length,
   (categoriesOf (rushVals tbl)).length,
   (categoriesOf (weekdayVals tbl)).length]

/-- Line 77: `emb_szs = [(size, min(50,(size+1)//2)) for size in cat_szs]`. -/
def emb_szs (szs : List ℕ) : List (ℕ × ℕ) :=
  szs.map (fun size => (size, min 50 ((size + 1) / 2)))

/-! ## Train/test split (`full_ann.py` lines 93-102) -/

/-- Line 93: `test_size = int(BATCH_N*TEST_SPLIT)`.  Python `int()`
truncates toward zero, which on this nonnegative value is the floor. -/
def test_size : ℕ := (⌊(BATCH_N : ℚ) * TEST_SPLIT⌋).toNat

/-- The Python slice `l[a:b]` for `0 ≤ a ≤ b`. -/
def pySlice {α : Type _} (l : List α) (a b : ℕ) : List α :=
  (l.drop a).take (b - a)

/-- Lines 96, 98, 101: the training slice `l[:BATCH_N-test_size]`. -/
def trainSlice {α : Type _} (l : List α) : List α :=
  l.take (BATCH_N - test_size)

/-- Lines 97, 99, 102: the test slice `l[BATCH_N-test_size:BATCH_N]`. -/
def testSlice {α : Type _} (l : List α) : List α :=
  pySlice l (BATCH_N - test_size) BATCH_N

/-! ## Loss (`full_ann.py` lines 89, 113, 129)

Line 89 sets `criterion = nn.MSELoss()` (mean reduction), and lines 113
and 129 take `torch.sqrt(criterion(pred, target))`.  Predictions and
targets are column vectors, modelled as lists of reals. -/

/-- `nn.MSELoss()` with the default mean reduction: the mean of the
squared elementwise differences. -/
noncomputable def mseLoss (pred target : List ℝ) : ℝ :=
  (List.zipWith (fun p t => (p - t) ^ 2) pred target).sum / pred.length

/-- Lines 113 and 129: `torch.sqrt(criterion(pred, target))`. -/
noncomputable def lossValue (pred target : List ℝ) : ℝ :=
  Real.sqrt (mseLoss pred target)

/-- The mean of a list of reals, written as the spec reads. -/
noncomputable def meanSpec (l : List ℝ) : ℝ := l.sum / l.length

/-- Modelled from the spec: "Loss = root-mean-squared-error between
prediction and target" — the square root of the mean of squared
prediction−target differences.  This is the spec-side definition for
the refinement claim about the loss; it is compared with `lossValue`,
which embeds what the code computes. -/
noncomputable def rmseSpec (pred target : List ℝ) : ℝ :=
  Real.sqrt (meanSpec ((List.zipWith (fun p t => p - t) pred target).map (· ^ 2)))

/-! ## Training loop (`full_ann.py` lines 105-124)

The model's forward pass is the external `TabularModel` (module
`neuralnet.models`, outside the source tree); together with the
optimizer updates it determines, for each epoch `i`, the prediction
vector on the training set.  We abstract that evolution as a function
`preds : ℕ → List ℝ` and record what the loop itself does with it:
append the epoch's loss to `losses` (line 114) and print on epochs
with `i % 10 == 1` (lines 116-117). -/

structure LoopTrace where
  losses : List ℝ
  printed : List (ℕ × ℝ)

/-- The loop of lines 106-124 after `n` of its iterations: iteration
`n` works at epoch `i = n + 1` (line 107 increments the loop index
before using it). -/
noncomputable def trainLoopAux (preds : ℕ → List ℝ) (target : List ℝ) :
    ℕ → LoopTrace
  | 0 => ⟨[], []⟩
  | n + 1 =>
    let tr := trainLoopAux preds target n
    let i := n + 1
    let loss := lossValue (preds i) target
    ⟨tr.losses ++ [loss],
     if i % 10 = 1 then tr.printed ++ [(i, loss)] else tr.printed⟩

/-- The full training loop: `for i in range(EPOCHS)`. -/
noncomputable def trainLoop (preds : ℕ → List ℝ) (target : List ℝ) : LoopTrace :=
  trainLoopAux preds target EPOCHS

/-- Lines 127-130: the test loss reported after training,
`torch.sqrt(criterion(y_val, y_test))`. -/
noncomputable def testLoss (y_val y_test : List ℝ) : ℝ :=
  lossValue y_val y_test

/-! ## Event-level view of the script's mutation discipline
(`full_ann.py` lines 106-130)

To talk about when the model's parameters change we replay the loop as
a sequence of events over a machine state holding the parameters and
the accumulated gradients.  Only `optStep` (line 124,
`optimizer.step()`) writes the parameters; `zeroGrad` (line 120) and
`backward` (line 122) write only the gradients; the forward pass, the
loss computation, the bookkeeping and the whole no-grad evaluation
block touch neither. -/

inductive Event where
  | forward        -- line 110: y_pred = model(cat_train, con_train)
  | lossCompute    -- line 113: loss = torch.sqrt(criterion(...))
  | record         -- line 114: losses.append(loss)
  | logPrint       -- line 117: print every 10th epoch
  | zeroGrad       -- line 120: optimizer.zero_grad()
  | backward       -- line 122: loss.backward()
  | optStep        -- line 124: optimizer.step()
  | noGradForward  -- line 128: y_val = model(cat_test, con_test) (no grad)
  | testLossCompute -- line 129
  | testPrint      -- line 130
  | samplePrint    -- lines 133-134
deriving DecidableEq, Repr

/-- Machine state: the model's parameters and the optimizer's
accumulated gradients, over abstract carrier types. -/
structure MachState (P G : Type _) where
  params : P
  grads : G

/-- Effect of one event on the machine state.  `gradOf` abstracts what
backpropagation computes from the current parameters; `stepOf`
abstracts the Adam update. -/
def applyEvent {P G : Type _} (zeroG : G) (gradOf : P → G)
    (stepOf : P → G → P) (s : MachState P G) : Event → MachState P G
  | .zeroGrad => { s with grads := zeroG }
  | .backward => { s with grads := gradOf s.params }
  | .optStep => { s with params := stepOf s.params s.grads }
  | _ => s

/-- The events of one iteration of the training loop (epoch `i`),
in source order (lines 110-124). -/
def epochEvents (i : ℕ) : List Event :=
  [.forward, .lossCompute, .record] ++
    (if i % 10 = 1 then [.logPrint] else []) ++
    [.zeroGrad, .backward, .optStep]

/-- The events of the post-training evaluation (lines 127-134). -/
def evalEvents : List Event :=
  [.noGradForward, .testLossCompute, .testPrint] ++
    List.replicate 10 .samplePrint

/-- The whole script after model construction: `n` training epochs,
then the evaluation block. -/
def scriptEvents (n : ℕ) : List Event :=
  (List.range n).flatMap (fun k => epochEvents (k + 1)) ++ evalEvents

/-! ## Haversine distance

The helper `haversine_distance` is imported from `geo/haversine.py`,
which is not part of the source tree. -/

/-- Modelled from the spec: the repository's `geo/haversine.py` is not
under the source tree, so the distance is modelled from the spec's
formula — convert degrees to radians, take
`a = sin²(Δlat/2) + cos(lat1)·cos(lat2)·sin²(Δlon/2)` and
`distance = 2·r·asin(√a)` with Earth radius `r = 6371` km. -/
noncomputable def haversine_distance (lat1 lon1 lat2 lon2 : ℝ) : ℝ :=
  2 * 6371 * Real.arcsin (Real.sqrt
    (Real.sin ((lat2 * (Real.pi / 180) - lat1 * (Real.pi / 180)) / 2) ^ 2 +
      Real.cos (lat1 * (Real.pi / 180)) * Real.cos (lat2 * (Real.pi / 180)) *
        Real.sin ((lon2 * (Real.pi / 180) - lon1 * (Real.pi / 180)) / 2) ^ 2))

/-! ## Claim theorems -/

/-- C1: The train/test split takes the first `N − test_size` rows of the
categorical, continuous and target tensors as the training set and the
remaining rows (up to `BATCH_N`) as the test set, where
`test_size = ⌊total_batch_size · test_fraction⌋`; with the defaults
(6000, 0.2) the training set has 4800 rows, the test set has 1200 rows,
and the two sizes sum to `total_batch_size`. -/
theorem C1_train_test_split :
    test_size = 1200 ∧ (⌊(BATCH_N : ℚ) * TEST_SPLIT⌋ = 1200) ∧
    BATCH_N - test_size = 4800 ∧
    ∀ {α : Type} (l : List α), BATCH_N ≤ l.length →
      trainSlice l = l.take 4800 ∧
      testSlice l = (l.drop 4800).take 1200 ∧
      (trainSlice l).length = 4800 ∧
      (testSlice l).length = 1200 ∧
      (trainSlice l).length + (testSlice l).length = BATCH_N ∧
      l.take BATCH_N = trainSlice l ++ testSlice l := by
  have h1 : (BATCH_N : ℚ) * TEST_SPLIT = ((1200 : ℤ) : ℚ) := by
    norm_num [BATCH_N, TEST_SPLIT]
  have hfl : ⌊(BATCH_N : ℚ) * TEST_SPLIT⌋ = 1200 := by
    rw [h1, Int.floor_intCast]
  have hts : test_size = 1200 := by
    show (⌊(BATCH_N : ℚ) * TEST_SPLIT⌋).toNat = 1200
    rw [hfl]
    rfl
  refine ⟨hts, hfl, by simp [BATCH_N, hts], ?_⟩
  intro α l hl
  have hlen : 6000 ≤ l.length := hl
  have htrain : trainSlice l = l.take 4800 := by
    simp [trainSlice, BATCH_N, hts]
  have htest : testSlice l = (l.drop 4800).take 1200 := by
    simp [testSlice, pySlice, BATCH_N, hts]
  refine ⟨htrain, htest, ?_, ?_, ?_, ?_⟩
  · simp only [htrain, List.length_take]
    omega
  · simp only [htest, List.length_take, List.length_drop]
    omega
  · simp only [htrain, htest, List.length_take, List.length_drop]
    show min 4800 l.length + min 1200 (l.length - 4800) = 6000
    omega
  · rw [htrain, htest]
    show l.take (4800 + 1200) = l.take 4800 ++ (l.drop 4800).take 1200
    exact List.take_add l 4800 1200

theorem C1_train_test_split_witness :
    BATCH_N ≤ (List.range 6000).length ∧
    (trainSlice (List.range 6000)).length = 4800 ∧
    (testSlice (List.range 6000)).length = 1200 ∧
    (trainSlice (List.range 6000)).length +
      (testSlice (List.range 6000)).length = BATCH_N := by
  have h : BATCH_N ≤ (List.range 6000).length := by
    simp [BATCH_N, List.length_range]
  have h' := C1_train_test_split.2.2.2 (List.range 6000) h
  exact ⟨h, h'.2.2.1, h'.2.2.2.1, h'.2.2.2.2.1⟩

/-- C2: for every hour in [0,23], the rush bucket is `am_rush` on
[8,9], `pm_rush` on [15,19] (both bounds inclusive) and `regular`
otherwise. -/
theorem C2_rush_buckets (h : ℕ) (hh : h ≤ 23) :
    ((8 ≤ h ∧ h ≤ 9) → rush_hour h = "am_rush") ∧
    ((15 ≤ h ∧ h ≤ 19) → rush_hour h = "pm_rush") ∧
    (¬(8 ≤ h ∧ h ≤ 9) → ¬(15 ≤ h ∧ h ≤ 19) → rush_hour h = "regular") := by
  interval_cases h <;> decide

theorem C2_rush_buckets_witness :
    (8 : ℕ) ≤ 23 ∧ (8 ≤ 8 ∧ 8 ≤ 9) ∧ rush_hour 8 = "am_rush" := by
  refine ⟨by decide, by decide, ?_⟩
  exact (C2_rush_buckets 8 (by decide)).1 (by decide)

/-- C3: every categorical column with `distinct_count` observed
categories is assigned embedding dimension
`min 50 ((distinct_count + 1) / 2)`; in particular 1 gives 1, 99 gives
50 and 100 gives 50 (the cap applies). -/
theorem C3_embedding_dims :
    (∀ (szs : List ℕ), ∀ p ∈ emb_szs szs, p.2 = min 50 ((p.1 + 1) / 2)) ∧
    emb_szs [1, 99, 100] = [(1, 1), (99, 50), (100, 50)] := by
  constructor
  · intro szs p hp
    simp only [emb_szs, List.mem_map] at hp
    obtain ⟨s, -, rfl⟩ := hp
    rfl
  · rfl

theorem C3_embedding_dims_witness :
    (1, 1) ∈ emb_szs [1] ∧ ((1 : ℕ), (1 : ℕ)).2 = min 50 (((1, 1).1 + 1) / 2) := by
  refine ⟨by decide, ?_⟩
  exact C3_embedding_dims.1 [1] (1, 1) (by decide)

/-! Helper lemmas about the training loop, shared by the loss-recording
and loss-shape claims. -/

theorem trainLoopAux_losses (preds : ℕ → List ℝ) (target : List ℝ) (n : ℕ) :
    (trainLoopAux preds target n).losses =
      (List.range n).map (fun k => lossValue (preds (k + 1)) target) := by
  induction n with
  | zero => rfl
  | succ n ih =>
    simp only [trainLoopAux, List.range_succ, List.map_append, ih, List.map_cons,
      List.map_nil]

theorem trainLoopAux_printed (preds : ℕ → List ℝ) (target : List ℝ) (n : ℕ) :
    (trainLoopAux preds target n).printed =
      (((List.range n).map (· + 1)).filter (fun i => i % 10 = 1)).map
        (fun i => (i, lossValue (preds i) target)) := by
  induction n with
  | zero => rfl
  | succ n ih =>
    by_cases hc : (n + 1) % 10 = 1 <;>
      simp only [trainLoopAux, List.range_succ, List.map_append, List.map_cons,
        List.map_nil, List.filter_append, ih, hc] <;>
      simp [hc]

/-- C4: over the 300 training epochs the loss is recorded in `losses`
at every epoch (one entry per epoch, in epoch order), and the training
loss is printed on every 10th epoch: exactly on epochs
1, 11, 21, …, 291, i.e. once per block of 10 epochs. -/
theorem C4_loss_recorded_and_logged (preds : ℕ → List ℝ) (target : List ℝ) :
    (trainLoop preds target).losses.length = EPOCHS ∧
    (trainLoop preds target).losses =
      (List.range EPOCHS).map (fun k => lossValue (preds (k + 1)) target) ∧
    (trainLoop preds target).printed.map Prod.fst =
      (List.range 30).map (fun k => 10 * k + 1) := by
  refine ⟨?_, trainLoopAux_losses preds target EPOCHS, ?_⟩
  · rw [trainLoop, trainLoopAux_losses]
    simp
  · rw [trainLoop, trainLoopAux_printed, List.map_map]
    show (((List.range EPOCHS).map (· + 1)).filter (fun i => i % 10 = 1)).map
        (fun i => i) = (List.range 30).map (fun k => 10 * k + 1)
    rw [List.map_id']
    decide

/-- C5: the loss computed at every training epoch, and the test loss
reported after training, are the root-mean-squared-error between the
model's predictions and the targets: the square root of the mean of
the squared prediction−target differences (`rmseSpec`, written from
the spec, versus `lossValue`/`testLoss`, written from the code). -/
theorem C5_loss_is_rmse :
    (∀ (pred target : List ℝ), pred.length = target.length →
      lossValue pred target = rmseSpec pred target) ∧
    (∀ (preds : ℕ → List ℝ) (target : List ℝ),
      (∀ i, (preds i).length = target.length) →
      (trainLoop preds target).losses =
        (List.range EPOCHS).map (fun k => rmseSpec (preds (k + 1)) target)) ∧
    (∀ (y_val y_test : List ℝ), y_val.length = y_test.length →
      testLoss y_val y_test = rmseSpec y_val y_test) := by
  have core : ∀ (pred target : List ℝ), pred.length = target.length →
      lossValue pred target = rmseSpec pred target := by
    intro pred target h
    unfold lossValue rmseSpec mseLoss meanSpec
    rw [List.map_zipWith, List.length_zipWith, h, min_self]
  refine ⟨core, ?_, fun v t h => core v t h⟩
  intro preds target h
  rw [trainLoop, trainLoopAux_losses]
  exact List.map_congr_left fun k _ => core _ _ (h (k + 1))

theorem C5_loss_is_rmse_witness :
    ([(1 : ℝ)].length = [(0 : ℝ)].length) ∧
    lossValue [(1 : ℝ)] [(0 : ℝ)] = rmseSpec [(1 : ℝ)] [(0 : ℝ)] :=
  ⟨rfl, C5_loss_is_rmse.1 [(1 : ℝ)] [(0 : ℝ)] rfl⟩

/-- C6: for an input table with `R` rows, the categorical-code tensor
has shape `R × 3` (columns hour, rush, weekday), the continuous tensor
has shape `R × 6` and the target tensor `R × 1`; the three row counts
equal the input row count, and row `i` of each tensor is derived from
row `i` of the source table. -/
theorem C6_tensor_shapes (dist : RawRow → ℚ) (tbl : List RawRow) :
    (cats (engineerTable dist tbl)).length = tbl.length ∧
    (conts (engineerTable dist tbl)).length = tbl.length ∧
    (yMat (engineerTable dist tbl)).length = tbl.length ∧
    (cats (engineerTable dist tbl)).map List.length =
      List.replicate tbl.length 3 ∧
    (conts (engineerTable dist tbl)).map List.length =
      List.replicate tbl.length 6 ∧
    (yMat (engineerTable dist tbl)).map List.length =
      List.replicate tbl.length 1 ∧
    (∀ i : ℕ, (cats (engineerTable dist tbl))[i]? =
      (tbl[i]?).map (fun r =>
        catsRow (engineerTable dist tbl) (engineer dist r))) ∧
    (∀ i : ℕ, (conts (engineerTable dist tbl))[i]? =
      (tbl[i]?).map (fun r => contsRow (engineer dist r))) ∧
    (∀ i : ℕ, (yMat (engineerTable dist tbl))[i]? =
      (tbl[i]?).map (fun r => yRow (engineer dist r))) := by
  refine ⟨by simp [cats, engineerTable], by simp [conts, engineerTable],
    by simp [yMat, engineerTable], ?_, ?_, ?_, ?_, ?_, ?_⟩
  · rw [List.eq_replicate_iff]
    refine ⟨by simp [cats, engineerTable], ?_⟩
    intro b hb
    simp only [cats, engineerTable, List.map_map, List.mem_map] at hb
    obtain ⟨r, -, rfl⟩ := hb
    rfl
  · rw [List.eq_replicate_iff]
    refine ⟨by simp [conts, engineerTable], ?_⟩
    intro b hb
    simp only [conts, engineerTable, List.map_map, List.mem_map] at hb
    obtain ⟨r, -, rfl⟩ := hb
    rfl
  · rw [List.eq_replicate_iff]
    refine ⟨by simp [yMat, engineerTable], ?_⟩
    intro b hb
    simp only [yMat, engineerTable, List.map_map, List.mem_map] at hb
    obtain ⟨r, -, rfl⟩ := hb
    rfl
  · intro i
    simp only [cats, engineerTable, List.map_map, List.getElem?_map]
    rfl
  · intro i
    simp only [conts, engineerTable, List.map_map, List.getElem?_map]
    rfl
  · intro i
    simp only [yMat, engineerTable, List.map_map, List.getElem?_map]
    rfl

/-- C7: each training epoch performs, in order, the forward pass, the
loss computation and recording, the gradient clearing, the
backpropagation and exactly one optimizer step (the step last); the
parameters are written by no event other than the optimizer step, and
the post-training evaluation block contains no step, so it leaves the
parameters unchanged. -/
theorem C7_mutation_discipline :
    (∀ (P G : Type) (zeroG : G) (gradOf : P → G) (stepOf : P → G → P)
        (s : MachState P G) (e : Event), e ≠ Event.optStep →
      (applyEvent zeroG gradOf stepOf s e).params = s.params) ∧
    (∀ i : ℕ, (epochEvents i).filter (fun e => e ≠ Event.logPrint) =
      [Event.forward, Event.lossCompute, Event.record,
       Event.zeroGrad, Event.backward, Event.optStep]) ∧
    (∀ i : ℕ, (epochEvents i).count Event.optStep = 1) ∧
    Event.optStep ∉ evalEvents ∧
    (∀ (P G : Type) (zeroG : G) (gradOf : P → G) (stepOf : P → G → P)
        (s : MachState P G),
      (evalEvents.foldl (applyEvent zeroG gradOf stepOf) s).params =
        s.params) := by
  refine ⟨?_, ?_, ?_, by decide, ?_⟩
  · intro P G zeroG gradOf stepOf s e he
    cases e <;> first | rfl | exact absurd rfl he
  · intro i
    unfold epochEvents
    split <;> rfl
  · intro i
    unfold epochEvents
    split <;> rfl
  · intro P G zeroG gradOf stepOf s
    rfl

theorem C7_mutation_discipline_witness :
    (Event.forward ≠ Event.optStep) ∧
    (applyEvent (0 : ℕ) (fun p : ℕ => p) (fun p g => p + g)
        ⟨5, 0⟩ Event.forward).params = (5 : ℕ) :=
  ⟨by decide,
    C7_mutation_discipline.1 ℕ ℕ 0 (fun p => p) (fun p g => p + g)
      ⟨5, 0⟩ Event.forward (by decide)⟩

/-- C8: the derived hour is the hour-of-day of the pickup timestamp
shifted by −4 hours, the derived weekday is the 3-letter day name of
that shifted timestamp, and the shift is a fixed offset: the shifted
hour-of-day is always `(hour + 20) mod 24`, with no daylight-saving
adjustment anywhere. -/
theorem C8_time_shift :
    (∀ (dist : RawRow → ℚ) (r : RawRow),
      (engineer dist r).hour = hourOfDay (r.pickup_datetime - 4 * 3600) ∧
      (engineer dist r).weekday = dayName (r.pickup_datetime - 4 * 3600)) ∧
    (∀ t : ℤ, hourOfDay (t - 4 * 3600) = (hourOfDay t + 20) % 24) := by
  constructor
  · exact fun dist r => ⟨rfl, rfl⟩
  · intro t
    unfold hourOfDay
    omega

/-- C9: the haversine distance, modelled from the spec's formula
(`geo/haversine.py` is not in the source tree), is symmetric in its two
coordinate pairs. -/
theorem C9_haversine_symm (lat1 lon1 lat2 lon2 : ℝ) :
    haversine_distance lat1 lon1 lat2 lon2 =
      haversine_distance lat2 lon2 lat1 lon1 := by
  unfold haversine_distance
  have hs : ∀ x y : ℝ, Real.sin ((x - y) / 2) ^ 2 = Real.sin ((y - x) / 2) ^ 2 := by
    intro x y
    rw [show (x - y) / 2 = -((y - x) / 2) by ring, Real.sin_neg, neg_sq]
  rw [hs (lat2 * (Real.pi / 180)) (lat1 * (Real.pi / 180)),
    hs (lon2 * (Real.pi / 180)) (lon1 * (Real.pi / 180)),
    mul_comm (Real.cos (lat1 * (Real.pi / 180)))]

end FullAnn
